import Mathlib

/-!
Shallow embedding of the connection-registry and delivery/queueing core of
`src/main.go` (a WebSocket chat relay).

Modelling choices, each tied to the source:

* `Message` mirrors the Go struct at main.go:19-24.  Go's `time.Time` is
  embedded as an `Int` (a point in time); the zero value of `time.Time`
  is embedded as `0`.
* The process-wide maps `connections : map[string]*websocket.Conn` and
  `messageQueues : map[string][]Message` (main.go:27-28) are embedded as
  total functions with default `none` / `[]`: a Go map read of an absent
  key yields the zero value (`nil`), and `append(nil, m) = [m]`, so a
  total function with empty default is observationally the same state.
  A `*websocket.Conn` handle is abstracted to a `Nat` identifier.
* The transport is an external collaborator; whether a particular
  `conn.Write` call succeeds (main.go:151) is an oracle
  `wk : Nat → Message → Bool` given to the semantics, and the frames the
  process actually writes are collected in an output list.
  `json.Marshal` of this struct (strings and a time) succeeds, so the
  marshal step of main.go:144 is embedded as total.
* Whether a `saveMessage` call succeeds (main.go:118, MongoDB insert) is
  an oracle `sk : Message → Bool`; on failure the code only logs
  (main.go:120), and delivery proceeds regardless.
-/

namespace Chat

/-- The chat message value (main.go:19-24). -/
structure Message where
  Sender : String
  Receiver : String
  Content : String
  Time : Int
deriving DecidableEq

/-- The shared mutable state: the connection registry `connections` and the
pending-queue store `messageQueues` (main.go:27-28). -/
structure ChatState where
  connections : String → Option Nat
  messageQueues : String → List Message

/-- Point update of the registry map. -/
def updConn (f : String → Option Nat) (k : String) (v : Option Nat) :
    String → Option Nat :=
  fun x => if x = k then v else f x

/-- Point update of the queue map. -/
def updQueue (f : String → List Message) (k : String) (v : List Message) :
    String → List Message :=
  fun x => if x = k then v else f x

/-- The empty process state set up in `main` (main.go:57-58). -/
def initialState : ChatState :=
  { connections := fun _ => none, messageQueues := fun _ => [] }

/-- `sendMessage` (main.go:133-158).  Looks up the receiver in
`connections`; if absent, appends the message to the receiver's queue and
returns.  If present, marshals and attempts the transport write: on
success the frame is emitted, on failure the function logs and returns
(no enqueue, no registry change).  Returns the new state and the list of
frames written (connection id paired with the message). -/
def sendMessage (wk : Nat → Message → Bool) (st : ChatState) (m : Message) :
    ChatState × List (Nat × Message) :=
  match st.connections m.Receiver with
  | none =>
      ({ st with
          messageQueues :=
            updQueue st.messageQueues m.Receiver
              (st.messageQueues m.Receiver ++ [m]) }, [])
  | some c =>
      if wk c m then (st, [(c, m)]) else (st, [])

/-- The flush loop body of `handleWebSocket` (main.go:94-96): call
`sendMessage` on each drained message in order, collecting the frames
written. -/
def deliverAll (wk : Nat → Message → Bool) (st : ChatState) :
    List Message → ChatState × List (Nat × Message)
  | [] => (st, [])
  | m :: ms =>
      let r := sendMessage wk st m
      let rest := deliverAll wk r.1 ms
      (rest.1, r.2 ++ rest.2)

/-- Lines 92-98 of `handleWebSocket`: install the binding
(`connections[userID] = conn`), range over the queue snapshot calling
`sendMessage` on each message, then set `messageQueues[userID] = nil`.
Go's `range` evaluates the slice header once, so the iteration is over
the snapshot taken after the bind. -/
def bindAndFlush (wk : Nat → Message → Bool) (st : ChatState)
    (userID : String) (conn : Nat) : ChatState × List (Nat × Message) :=
  let st1 : ChatState :=
    { st with connections := updConn st.connections userID (some conn) }
  let pending := st1.messageQueues userID
  let r := deliverAll wk st1 pending
  ({ r.1 with messageQueues := updQueue r.1.messageQueues userID [] }, r.2)

/-- `delete(connections, userID)` at loop exit (main.go:128). -/
def disconnect (st : ChatState) (userID : String) : ChatState :=
  { st with connections := updConn st.connections userID none }

/-- An inbound transport frame as seen by `json.Unmarshal`
(main.go:109-115).  `malformed` stands for any payload on which
`json.Unmarshal` errors (invalid JSON, a non-object, or a field of the
wrong type such as an unparsable time string).  `object` is a decodable
JSON object: each wire field is present or absent, and `unknown` records
whether the object additionally carries fields not in the struct. -/
inductive Frame where
  | malformed : Frame
  | object (sender receiver content : Option String) (time : Option Int)
      (unknown : Bool) : Frame
deriving DecidableEq

/-- `json.Unmarshal(msg, &message)` into the `Message` struct
(main.go:110-111): unknown fields are ignored, absent fields leave the
struct field at its zero value ("" for strings, the zero time for
`Time`), and only a malformed payload yields an error. -/
def unmarshalMessage : Frame → Option Message
  | .malformed => none
  | .object s r c t _ =>
      some { Sender := s.getD "", Receiver := r.getD "",
             Content := c.getD "", Time := t.getD 0 }

/-- One session's observable state while its read loop runs: the shared
chat state, the list of messages recorded to the durable store
(main.go:118), and the frames written to transports. -/
structure LoopState where
  chat : ChatState
  saved : List Message
  written : List (Nat × Message)

/-- One iteration of the read loop on a successfully read frame
(main.go:109-124): decode; on decode failure log and `continue` (state
untouched); on success attempt the durable-store insert (failure only
logged) and call `sendMessage`. -/
def processFrame (wk : Nat → Message → Bool) (sk : Message → Bool)
    (st : LoopState) (f : Frame) : LoopState :=
  match unmarshalMessage f with
  | none => st
  | some m =>
      let saved1 := if sk m then st.saved ++ [m] else st.saved
      let r := sendMessage wk st.chat m
      { chat := r.1, saved := saved1, written := st.written ++ r.2 }

/-- The read loop over the frames received before the read error or close
that terminates it (main.go:101-125). -/
def processFrames (wk : Nat → Message → Bool) (sk : Message → Bool)
    (st : LoopState) (fs : List Frame) : LoopState :=
  fs.foldl (processFrame wk sk) st

/-- `handleWebSocket` (main.go:68-131) for an accepted connection, with
the frames read before the session ends given as a list.  If the
`user_id` query parameter is empty the handler returns before touching
any shared state (main.go:86-88); otherwise it binds, flushes the
pending queue, runs the read loop, and removes the binding. -/
def handleWebSocket (wk : Nat → Message → Bool) (sk : Message → Bool)
    (st : LoopState) (userID : String) (conn : Nat) (frames : List Frame) :
    LoopState :=
  if userID = "" then st
  else
    let r := bindAndFlush wk st.chat userID conn
    let st1 : LoopState :=
      { chat := r.1, saved := st.saved, written := st.written ++ r.2 }
    let st2 := processFrames wk sk st1 frames
    { st2 with chat := disconnect st2.chat userID }

/-- A process-level operation on the shared state, as performed by some
session task.  `connect` is lines 85-98 of `handleWebSocket` (the empty
user-id guard, the bind, and the flush), `deliver` is a `sendMessage`
call made from a read loop (main.go:124), and `close` is the
`delete(connections, userID)` at loop exit (main.go:128).  Each
transport-dependent operation carries its own write oracle. -/
inductive Op where
  | connect (userID : String) (conn : Nat) (wk : Nat → Message → Bool) : Op
  | deliver (wk : Nat → Message → Bool) (m : Message) : Op
  | close (userID : String) : Op

/-- Effect of one `Op` on the shared state (outputs to transports are
dropped; only the shared maps are tracked). -/
def applyOp (st : ChatState) : Op → ChatState
  | .connect u c wk => if u = "" then st else (bindAndFlush wk st u c).1
  | .deliver wk m => (sendMessage wk st m).1
  | .close u => disconnect st u

/-- Run a sequence of process-level operations from a given state. -/
def runOps : ChatState → List Op → ChatState
  | st, [] => st
  | st, op :: ops => runOps (applyOp st op) ops

/-- The messages delivered to receiver `r` by the operations, in order. -/
def deliveriesTo (r : String) (ops : List Op) : List Message :=
  ops.filterMap fun op =>
    match op with
    | .deliver _ m => if m.Receiver = r then some m else none
    | _ => none

/-!
Fine-grained interleaving model for one receiver R, used to examine the
unsynchronized accesses to `connections` and `messageQueues` when a
sender's `sendMessage` for R runs concurrently with R's reconnect
(bind + flush + clear).  Each `RaceOp` is one shared-memory access of
the Go code:

* `senderLookup` — the sender task reads `connections[R]`
  (main.go:135) and remembers whether R was found;
* `senderFinish` — the sender task completes `sendMessage`: if the
  lookup found R it writes the frame to R's connection (main.go:151,
  taken to succeed here), otherwise it appends the message to
  `messageQueues[R]` (main.go:138);
* `bindR` — R's handler executes `connections[userID] = conn`
  (main.go:92);
* `snapR` — R's handler reads the slice header `messageQueues[userID]`
  for the `range` loop (main.go:94);
* `flushR` — R's handler writes every snapshotted message to the new
  connection (main.go:94-96, writes taken to succeed);
* `clearR` — R's handler executes `messageQueues[userID] = nil`
  (main.go:98).

Program order within each task is: `senderLookup` before
`senderFinish`, and `bindR`, `snapR`, `flushR`, `clearR` in that order;
an interleaving is any shuffle of the two programs.
-/

/-- Shared state of the two racing tasks, projected to receiver R:
whether R is bound, R's pending queue, the sender's remembered lookup
result, the handler's loop snapshot, and the frames R's transport has
received. -/
structure RaceState where
  bound : Bool
  queue : List Message
  senderOk : Bool
  snap : List Message
  delivered : List Message
deriving DecidableEq

/-- One atomic shared-memory access of either task; `m` is the message
the sender is delivering to R. -/
inductive RaceOp where
  | senderLookup : RaceOp
  | senderFinish : RaceOp
  | bindR : RaceOp
  | snapR : RaceOp
  | flushR : RaceOp
  | clearR : RaceOp
deriving DecidableEq

/-- Effect of one atomic access. -/
def raceStep (m : Message) (st : RaceState) : RaceOp → RaceState
  | .senderLookup => { st with senderOk := st.bound }
  | .senderFinish =>
      if st.senderOk then { st with delivered := st.delivered ++ [m] }
      else { st with queue := st.queue ++ [m] }
  | .bindR => { st with bound := true }
  | .snapR => { st with snap := st.queue }
  | .flushR => { st with delivered := st.delivered ++ st.snap }
  | .clearR => { st with queue := [] }

/-- Run an interleaving from the state in which R is offline with
pending queue `q0` and the sender has not yet looked R up. -/
def raceRun (m : Message) (q0 : List Message) (sched : List RaceOp) :
    RaceState :=
  sched.foldl (raceStep m)
    { bound := false, queue := q0, senderOk := false, snap := [],
      delivered := [] }

/-- An interleaving consistent with both tasks' program order: the
sender looks R up just before R's handler binds, and appends the
message after the flush loop has read its snapshot but before the
handler clears the queue. -/
def lostUpdateSchedule : List RaceOp :=
  [.senderLookup, .bindR, .snapR, .flushR, .senderFinish, .clearR]

/-! Concrete states and oracles used by the witness and counterexample
theorems below. -/

/-- A state in which only "alice" is connected (handle 0) and every
queue is empty. -/
def regAlice : ChatState :=
  { connections := fun u => if u = "alice" then some 0 else none,
    messageQueues := fun _ => [] }

/-- A message from "bob" to "alice". -/
def msgToAlice : Message :=
  { Sender := "bob", Receiver := "alice", Content := "hi", Time := 1 }

/-- A transport whose writes always fail. -/
def alwaysFail : Nat → Message → Bool := fun _ _ => false

/-- A transport whose writes always succeed. -/
def alwaysOk : Nat → Message → Bool := fun _ _ => true

/-- A message from "bob" to "alice" with the given timestamp. -/
def msgA (t : Int) : Message :=
  { Sender := "bob", Receiver := "alice", Content := "hi", Time := t }

/-- A state in which nobody is connected and "alice" has three pending
messages. -/
def qAliceThree : ChatState :=
  { connections := fun _ => none,
    messageQueues := fun u =>
      if u = "alice" then [msgA 1, msgA 2, msgA 3] else [] }

/-- A transport that fails exactly on the message with timestamp 2. -/
def wkNotTwo : Nat → Message → Bool := fun _ m => decide (m.Time ≠ 2)

/-! ### General lemmas about the embedded operations -/

theorem updQueue_same (f : String → List Message) (k : String)
    (v : List Message) : updQueue f k v k = v := by
  simp [updQueue]

theorem updQueue_self (f : String → List Message) (k : String) :
    updQueue f k (f k) = f := by
  funext x
  rcases eq_or_ne x k with h | h <;> simp [updQueue, h]

theorem updQueue_updQueue (f : String → List Message) (k : String)
    (v w : List Message) : updQueue (updQueue f k v) k w = updQueue f k w := by
  funext x
  rcases eq_or_ne x k with h | h <;> simp [updQueue, h]

theorem sendMessage_offline (wk : Nat → Message → Bool) (st : ChatState)
    (m : Message) (h : st.connections m.Receiver = none) :
    sendMessage wk st m =
      ({ st with
          messageQueues :=
            updQueue st.messageQueues m.Receiver
              (st.messageQueues m.Receiver ++ [m]) }, []) := by
  simp [sendMessage, h]

theorem sendMessage_online (wk : Nat → Message → Bool) (st : ChatState)
    (m : Message) (c : Nat) (h : st.connections m.Receiver = some c) :
    sendMessage wk st m = (st, if wk c m then [(c, m)] else []) := by
  simp only [sendMessage, h]
  cases hw : wk c m <;> simp [hw]

/-- Flushing a batch whose receivers are all bound to connection `c`
leaves the state unchanged and writes exactly the messages whose
transport write succeeds, in order. -/
theorem deliverAll_bound (wk : Nat → Message → Bool) (c : Nat)
    (msgs : List Message) :
    ∀ st : ChatState, (∀ m ∈ msgs, st.connections m.Receiver = some c) →
      deliverAll wk st msgs =
        (st, msgs.filterMap fun m => if wk c m then some (c, m) else none) := by
  induction msgs with
  | nil => intro st _; rfl
  | cons m ms ih =>
      intro st h
      have hm := h m (List.mem_cons_self m ms)
      have hrest : ∀ x ∈ ms, st.connections x.Receiver = some c :=
        fun x hx => h x (List.mem_cons_of_mem m hx)
      simp only [deliverAll, sendMessage_online wk st m c hm,
        List.filterMap_cons, ih st hrest]
      cases hw : wk c m <;> simp [hw]

/-- Delivering a batch of messages all addressed to an offline receiver
appends them, in order, to the tail of that receiver's queue and writes
nothing. -/
theorem deliverAll_offline (wk : Nat → Message → Bool) (r : String)
    (msgs : List Message) :
    ∀ st : ChatState, (∀ m ∈ msgs, m.Receiver = r) →
      st.connections r = none →
      deliverAll wk st msgs =
        ({ st with
            messageQueues :=
              updQueue st.messageQueues r (st.messageQueues r ++ msgs) },
         []) := by
  induction msgs with
  | nil =>
      intro st _ _
      simp [deliverAll, updQueue_self]
  | cons m ms ih =>
      intro st hr hc
      have hm : m.Receiver = r := hr m (List.mem_cons_self m ms)
      have hcm : st.connections m.Receiver = none := by rw [hm]; exact hc
      have hrest : ∀ x ∈ ms, x.Receiver = r :=
        fun x hx => hr x (List.mem_cons_of_mem m hx)
      simp only [deliverAll, sendMessage_offline wk st m hcm]
      rw [hm]
      rw [ih _ hrest (by simpa using hc)]
      simp [updQueue_updQueue, updQueue_same]

/-- Full characterization of `bindAndFlush` on a state whose pending
queue for `u` contains only messages addressed to `u` (an invariant of
all reachable states): the binding is installed, the queue for `u` is
cleared, nothing else changes, and the frames written are exactly the
drained messages whose write succeeds, in order. -/
theorem bindAndFlush_spec (wk : Nat → Message → Bool) (st : ChatState)
    (u : String) (conn : Nat)
    (hq : ∀ m ∈ st.messageQueues u, m.Receiver = u) :
    bindAndFlush wk st u conn =
      ({ connections := updConn st.connections u (some conn),
         messageQueues := updQueue st.messageQueues u [] },
       (st.messageQueues u).filterMap
         fun m => if wk conn m then some (conn, m) else none) := by
  have hb : ∀ m ∈ st.messageQueues u,
      (updConn st.connections u (some conn)) m.Receiver = some conn := by
    intro m hm
    simp [updConn, hq m hm]
  simp only [bindAndFlush]
  rw [deliverAll_bound wk conn (st.messageQueues u)
    { st with connections := updConn st.connections u (some conn) } hb]

/-- If every message in the batch passes the write oracle, the frames
written are the whole batch in order. -/
theorem filterMap_write_all (wk : Nat → Message → Bool) (c : Nat)
    (msgs : List Message) (h : ∀ m ∈ msgs, wk c m = true) :
    (msgs.filterMap fun m => if wk c m then some (c, m) else none) =
      msgs.map fun m => (c, m) := by
  induction msgs with
  | nil => rfl
  | cons m ms ih =>
      simp [List.filterMap_cons, h m (by simp),
        ih fun x hx => h x (by simp [hx])]

/-! ### Claim theorems -/

/-- Claim C1 (counterexample): with "alice" bound to handle 0 and every
queue empty, a `sendMessage` to "alice" whose transport write fails
emits no frame, leaves "alice"'s queue empty (no enqueue), and leaves
the binding in place — contradicting both "enqueue and remove the dead
binding on write failure" and "exactly one of {immediate write, queue
append} per call". -/
theorem C1_counterexample :
    (sendMessage alwaysFail regAlice msgToAlice).2 = [] ∧
    (sendMessage alwaysFail regAlice msgToAlice).1.messageQueues "alice" = [] ∧
    (sendMessage alwaysFail regAlice msgToAlice).1.connections "alice" = some 0 := by
  decide

/-- Claim C1 (amended): when the receiver is bound in the registry but
the transport write fails, `sendMessage` leaves the whole state
unchanged — the message is dropped, not enqueued, and the dead binding
is not removed — and writes nothing; a call therefore performs exactly
one of {immediate write, queue append} only when the receiver is
unbound or the write succeeds. -/
theorem C1_amended (wk : Nat → Message → Bool) (st : ChatState)
    (m : Message) (c : Nat) (hc : st.connections m.Receiver = some c)
    (hw : wk c m = false) :
    (sendMessage wk st m).1 = st ∧ (sendMessage wk st m).2 = [] := by
  simp [sendMessage, hc, hw]

/-- Witness for C1_amended at the concrete inputs of the counterexample. -/
theorem C1_amended_witness :
    regAlice.connections msgToAlice.Receiver = some 0 ∧
    alwaysFail 0 msgToAlice = false ∧
    ((sendMessage alwaysFail regAlice msgToAlice).1 = regAlice ∧
     (sendMessage alwaysFail regAlice msgToAlice).2 = []) :=
  ⟨by decide, rfl, C1_amended alwaysFail regAlice msgToAlice 0 (by decide) rfl⟩

/-- Claim C4 (confirmed): flushing is idempotent per connection event —
after one `bindAndFlush` the user's queue is empty, and a second
`bindAndFlush` for the same user with no intervening enqueues writes no
frame, so reconnecting delivers nothing twice. -/
theorem C4_flush_idempotent (wk wk2 : Nat → Message → Bool)
    (st : ChatState) (u : String) (c c2 : Nat) :
    (bindAndFlush wk st u c).1.messageQueues u = [] ∧
    (bindAndFlush wk2 (bindAndFlush wk st u c).1 u c2).2 = [] := by
  constructor
  · simp [bindAndFlush, updQueue]
  · simp [bindAndFlush, updQueue, deliverAll]

/-- Claim C5 (counterexample): a decodable frame carrying sender,
receiver and content but no time field decodes to a Message whose
timestamp is the zero value — the code never assigns a receipt time, so
the timestamp is left at the default. -/
theorem C5_counterexample :
    unmarshalMessage
        (Frame.object (some "bob") (some "alice") (some "hi") none false) =
      some { Sender := "bob", Receiver := "alice", Content := "hi",
             Time := 0 } := by
  rfl

/-- Claim C5 (amended): a successfully decoded frame that does not
supply a time field yields a Message whose timestamp is the zero value
(no receipt time is assigned). -/
theorem C5_amended (s r c : Option String) (u : Bool) (m : Message)
    (h : unmarshalMessage (Frame.object s r c none u) = some m) :
    m.Time = 0 := by
  simp only [unmarshalMessage, Option.some.injEq] at h
  subst h
  rfl

/-- Witness for C5_amended at a concrete frame. -/
theorem C5_amended_witness :
    unmarshalMessage (Frame.object (some "b") (some "a") (some "x") none true) =
      some { Sender := "b", Receiver := "a", Content := "x", Time := 0 } ∧
    Message.Time { Sender := "b", Receiver := "a", Content := "x", Time := 0 } = 0 :=
  ⟨rfl, C5_amended (some "b") (some "a") (some "x") true
    { Sender := "b", Receiver := "a", Content := "x", Time := 0 } rfl⟩

/-- Claim C6 (counterexample): a frame missing every wire-format field
and carrying unknown fields still decodes successfully — to the
all-zero-value Message — and `processFrame` accepts and enqueues it
rather than treating it as a decode failure. -/
theorem C6_counterexample :
    unmarshalMessage (Frame.object none none none none true) =
      some { Sender := "", Receiver := "", Content := "", Time := 0 } ∧
    (processFrame alwaysOk (fun _ => false)
        { chat := initialState, saved := [], written := [] }
        (Frame.object none none none none true)).chat.messageQueues "" =
      [{ Sender := "", Receiver := "", Content := "", Time := 0 }] := by
  constructor
  · rfl
  · decide

/-- Claim C6 (amended): decoding never fails on a decodable object
frame — unknown fields are ignored (the result does not depend on them)
and missing fields are filled with zero values; only a malformed
payload fails to decode. -/
theorem C6_amended (s r c : Option String) (t : Option Int) (u : Bool) :
    (unmarshalMessage (Frame.object s r c t u)).isSome = true ∧
    unmarshalMessage (Frame.object s r c t u) =
      unmarshalMessage (Frame.object s r c t false) ∧
    unmarshalMessage Frame.malformed = none :=
  ⟨rfl, rfl, rfl⟩

/-- Claim C7 (confirmed): a decode failure is non-fatal to the session —
processing a malformed frame leaves the loop state exactly unchanged
(nothing saved, nothing delivered, nothing enqueued), and a read loop
that sees a malformed frame between two batches of frames behaves
exactly like the loop without it, so a subsequent valid frame is
processed normally. -/
theorem C7_decode_failure_nonfatal (wk : Nat → Message → Bool)
    (sk : Message → Bool) (st : LoopState) (fs gs : List Frame) :
    processFrame wk sk st Frame.malformed = st ∧
    processFrames wk sk st (fs ++ Frame.malformed :: gs) =
      processFrames wk sk st (fs ++ gs) := by
  refine ⟨rfl, ?_⟩
  unfold processFrames
  rw [List.foldl_append, List.foldl_append, List.foldl_cons]
  rfl

/-- Claim C8 (confirmed): a connection whose user id is empty is
rejected before any state mutation — `handleWebSocket` with the empty
user id returns the state exactly as it was: no binding installed, the
registry and the pending-queue store untouched, nothing saved and no
frame written. -/
theorem C8_empty_user_id_rejected (wk : Nat → Message → Bool)
    (sk : Message → Bool) (st : LoopState) (conn : Nat)
    (frames : List Frame) :
    handleWebSocket wk sk st "" conn frames = st := by
  simp [handleWebSocket]

/-- Claim C2 (counterexample): with three messages pending for "alice"
and a transport that fails exactly on the second, `bindAndFlush` writes
the first AND the third (the flush does not abort at the failure) and
clears the queue (nothing is re-enqueued) — the failed message is
silently lost instead of being re-enqueued with its successors. -/
theorem C2_counterexample :
    (bindAndFlush wkNotTwo qAliceThree "alice" 0).2 =
      [(0, msgA 1), (0, msgA 3)] ∧
    (bindAndFlush wkNotTwo qAliceThree "alice" 0).1.messageQueues "alice" = [] := by
  decide

/-- Claim C2 (amended): if a transport write fails mid-flush, the
failed message is silently dropped — nothing is re-enqueued, the flush
continues with the remaining messages, and the queue is cleared: the
frames written are exactly the drained messages whose write succeeds,
in their original relative order. -/
theorem C2_amended (wk : Nat → Message → Bool) (st : ChatState)
    (u : String) (conn : Nat)
    (hq : ∀ m ∈ st.messageQueues u, m.Receiver = u) :
    (bindAndFlush wk st u conn).2 =
      (st.messageQueues u).filterMap
        (fun m => if wk conn m then some (conn, m) else none) ∧
    (bindAndFlush wk st u conn).1.messageQueues u = [] := by
  rw [bindAndFlush_spec wk st u conn hq]
  exact ⟨rfl, updQueue_same _ _ _⟩

/-- Witness for C2_amended at the counterexample inputs. -/
theorem C2_amended_witness :
    (∀ m ∈ qAliceThree.messageQueues "alice", m.Receiver = "alice") ∧
    ((bindAndFlush wkNotTwo qAliceThree "alice" 0).2 =
        (qAliceThree.messageQueues "alice").filterMap
          (fun m => if wkNotTwo 0 m then some (0, m) else none) ∧
     (bindAndFlush wkNotTwo qAliceThree "alice" 0).1.messageQueues "alice" = []) :=
  ⟨by decide, C2_amended wkNotTwo qAliceThree "alice" 0 (by decide)⟩

/-- Claim C3 (confirmed): messages delivered while the receiver has no
binding are appended to the tail of the receiver's queue (created
implicitly on first enqueue) in arrival order and nothing is written
for them; on the receiver's next connection, when every transport write
succeeds, every queued message is written to the new transport in that
order and the queue is then cleared. -/
theorem C3_offline_enqueue_then_flush (wk wkf : Nat → Message → Bool)
    (st : ChatState) (r : String) (msgs : List Message) (conn : Nat)
    (hr : ∀ m ∈ msgs, m.Receiver = r)
    (hc : st.connections r = none)
    (hq : ∀ m ∈ st.messageQueues r, m.Receiver = r)
    (hwk : ∀ m ∈ st.messageQueues r ++ msgs, wkf conn m = true) :
    (deliverAll wk st msgs).1.messageQueues r =
      st.messageQueues r ++ msgs ∧
    (deliverAll wk st msgs).2 = [] ∧
    (bindAndFlush wkf (deliverAll wk st msgs).1 r conn).2 =
      (st.messageQueues r ++ msgs).map (fun m => (conn, m)) ∧
    (bindAndFlush wkf (deliverAll wk st msgs).1 r conn).1.messageQueues r = [] := by
  have hq2 : ∀ m ∈ st.messageQueues r ++ msgs, m.Receiver = r := by
    intro m hm
    rcases List.mem_append.mp hm with h | h
    · exact hq m h
    · exact hr m h
  rw [deliverAll_offline wk r msgs st hr hc]
  have hq3 : ∀ m ∈ updQueue st.messageQueues r (st.messageQueues r ++ msgs) r,
      m.Receiver = r := by
    rw [updQueue_same]
    exact hq2
  rw [bindAndFlush_spec wkf
    { st with
        messageQueues :=
          updQueue st.messageQueues r (st.messageQueues r ++ msgs) }
    r conn hq3]
  refine ⟨?_, rfl, ?_, ?_⟩
  · simp [updQueue_same]
  · simp only [updQueue_same]
    exact filterMap_write_all wkf conn _ hwk
  · simp [updQueue_same]

/-- Witness for C3 at concrete inputs: two messages for the offline
"alice" from the empty initial state, then a connect on handle 0 with a
transport that always succeeds. -/
theorem C3_witness :
    (∀ m ∈ [msgA 1, msgA 2], m.Receiver = "alice") ∧
    initialState.connections "alice" = none ∧
    (∀ m ∈ initialState.messageQueues "alice", m.Receiver = "alice") ∧
    (∀ m ∈ initialState.messageQueues "alice" ++ [msgA 1, msgA 2],
      alwaysOk 0 m = true) ∧
    ((deliverAll alwaysOk initialState [msgA 1, msgA 2]).1.messageQueues "alice" =
        initialState.messageQueues "alice" ++ [msgA 1, msgA 2] ∧
     (deliverAll alwaysOk initialState [msgA 1, msgA 2]).2 = [] ∧
     (bindAndFlush alwaysOk
        (deliverAll alwaysOk initialState [msgA 1, msgA 2]).1 "alice" 0).2 =
       (initialState.messageQueues "alice" ++ [msgA 1, msgA 2]).map
         (fun m => (0, m)) ∧
     (bindAndFlush alwaysOk
        (deliverAll alwaysOk initialState [msgA 1, msgA 2]).1 "alice"
        0).1.messageQueues "alice" = []) :=
  ⟨by decide, rfl, by decide, by decide,
    C3_offline_enqueue_then_flush alwaysOk alwaysOk initialState "alice"
      [msgA 1, msgA 2] 0 (by decide) rfl (by decide) (by decide)⟩

/-- Claim C9: the code is wrong — at the program-order-respecting
interleaving in which the sender's registry lookup happens before R's
bind and its queue append lands between the flush's snapshot read and
the queue clear, a message sent to R during R's reconnect flush ends up
neither in the drained batch (nothing is delivered, the snapshot was
empty) nor in the queue afterwards (the clear wiped it): it is silently
lost, contradicting the required no-loss-under-concurrent-reconnect
property. -/
theorem C9_lost_update :
    (raceRun { Sender := "bob", Receiver := "R", Content := "hi", Time := 0 }
        [] lostUpdateSchedule).delivered = [] ∧
    (raceRun { Sender := "bob", Receiver := "R", Content := "hi", Time := 0 }
        [] lostUpdateSchedule).queue = [] := by
  decide

/-- Run lemma for C10: if no binding exists for the empty user id and
every queued message sits in its own receiver's queue, then any
sequence of process-level operations preserves both facts, and the
queue under the empty-string key grows by exactly the messages
delivered to the empty receiver, in order. -/
theorem runOps_empty_receiver (ops : List Op) :
    ∀ st : ChatState, st.connections "" = none →
      (∀ u, ∀ m ∈ st.messageQueues u, m.Receiver = u) →
      ((runOps st ops).connections "" = none ∧
       (runOps st ops).messageQueues "" =
         st.messageQueues "" ++ deliveriesTo "" ops ∧
       (∀ u, ∀ m ∈ (runOps st ops).messageQueues u, m.Receiver = u)) := by
  induction ops with
  | nil =>
      intro st h1 h2
      exact ⟨h1, by simp [runOps, deliveriesTo], h2⟩
  | cons op ops ih =>
      intro st h1 h2
      have hstep : (applyOp st op).connections "" = none ∧
          (applyOp st op).messageQueues "" =
            st.messageQueues "" ++
              (match op with
               | .deliver _ m => if m.Receiver = "" then [m] else []
               | _ => []) ∧
          (∀ u, ∀ m ∈ (applyOp st op).messageQueues u, m.Receiver = u) := by
        cases op with
        | connect u c wk =>
            by_cases hu : u = ""
            · have ha : applyOp st (Op.connect u c wk) = st := by
                simp [applyOp, hu]
              rw [ha]
              exact ⟨h1, by simp, h2⟩
            · rw [applyOp, if_neg hu, bindAndFlush_spec wk st u c (h2 u)]
              refine ⟨?_, ?_, ?_⟩
              · simp [updConn, Ne.symm hu, h1]
              · simp [updQueue, Ne.symm hu]
              · intro v m hm
                have hm2 : m ∈ updQueue st.messageQueues u [] v := hm
                rcases eq_or_ne v u with hv | hv
                · rw [hv, updQueue_same] at hm2
                  exact absurd hm2 (List.not_mem_nil m)
                · rw [show updQueue st.messageQueues u [] v =
                        st.messageQueues v by simp [updQueue, hv]] at hm2
                  exact h2 v m hm2
        | deliver wk m =>
            rcases hcm : st.connections m.Receiver with _ | c
            · rw [applyOp, sendMessage_offline wk st m hcm]
              refine ⟨h1, ?_, ?_⟩
              · rcases eq_or_ne m.Receiver "" with hrm | hrm
                · simp [updQueue, hrm]
                · simp [updQueue, Ne.symm hrm, hrm]
              · intro v x hx
                have hx2 : x ∈ updQueue st.messageQueues m.Receiver
                    (st.messageQueues m.Receiver ++ [m]) v := hx
                rcases eq_or_ne v m.Receiver with hv | hv
                · subst hv
                  rw [updQueue_same] at hx2
                  rcases List.mem_append.mp hx2 with h | h
                  · exact h2 _ x h
                  · rw [List.mem_singleton.mp h]
                · rw [show updQueue st.messageQueues m.Receiver
                        (st.messageQueues m.Receiver ++ [m]) v =
                        st.messageQueues v by simp [updQueue, hv]] at hx2
                  exact h2 v x hx2
            · have hrm : m.Receiver ≠ "" := by
                intro hr
                rw [hr, h1] at hcm
                exact Option.noConfusion hcm
              rw [applyOp, sendMessage_online wk st m c hcm]
              exact ⟨h1, by simp [hrm], h2⟩
        | close u =>
            refine ⟨?_, by simp [applyOp, disconnect], ?_⟩
            · rcases eq_or_ne ("" : String) u with hv | hv
              · simp [applyOp, disconnect, updConn, hv]
              · simp [applyOp, disconnect, updConn, hv, h1]
            · intro v x hx
              exact h2 v x hx
      have hrec := ih (applyOp st op) hstep.1 hstep.2.2
      refine ⟨hrec.1, ?_, hrec.2.2⟩
      rw [show runOps st (op :: ops) = runOps (applyOp st op) ops from rfl,
        hrec.2.1, hstep.2.1, List.append_assoc]
      congr 1
      cases op with
      | connect u c wk => simp [deliveriesTo, List.filterMap_cons]
      | deliver wk m =>
          rcases eq_or_ne m.Receiver "" with hrm | hrm <;>
            simp [deliveriesTo, List.filterMap_cons, hrm]
      | close u => simp [deliveriesTo, List.filterMap_cons]

/-- Claim C10 (confirmed): starting from the initial empty state and
running any sequence of process-level operations, the empty user id is
never bound (a session with an empty id is rejected before binding),
and the queue stored under the empty-string key holds exactly the
messages ever delivered to the empty receiver, in order — every such
message is enqueued, is never flushed to any client, and accumulates in
the queue forever. -/
theorem C10_empty_receiver_accumulates (ops : List Op) :
    (runOps initialState ops).connections "" = none ∧
    (runOps initialState ops).messageQueues "" = deliveriesTo "" ops := by
  have h := runOps_empty_receiver ops initialState rfl
    (by intro u m hm; exact absurd hm (List.not_mem_nil m))
  exact ⟨h.1, by simpa [initialState] using h.2.1⟩

end Chat
